import Mathlib

/-!
Verification of the rule-based password validator of
`Yet-Another-Approach-in-Cpp20-for-problem-67-of-The-Modern-Cpp-Challenge`
(src/main.cpp), as a shallow embedding.

A candidate password is a sequence of `char` values.  We model a character
as an `Int`: on a platform with signed `char` a byte may carry a negative
value, and the source's case rule casts each `char` to `unsigned char`
(value mod 256) before classification, so the embedding keeps characters
as integers and performs that cast explicitly.

`password_validator` stores a vector of type-erased closures
`std::function<validate_result(std::string_view)>`; `rule` wraps the given
predicate and message into such a closure and appends it, and `validate`
maps all closures over the password, then either returns success or
collects the failing closures' messages in order.  The embedding mirrors
this exactly: a `Validator` is a list of functions from passwords to
`Except String Unit`.
-/

/-- A candidate password: its sequence of `char` values. -/
abbrev Password := List Int

/-- `validate_result` from the source: `mitama::result<std::monostate, std::string>`,
success with no payload or failure with one message. -/
abbrev validate_result := Except String Unit

/-- `res.is_ok()` on a per-rule result. -/
def is_ok : validate_result → Bool
  | .ok _ => true
  | .error _ => false

/-- `res.is_err()` on a per-rule result. -/
def is_err : validate_result → Bool
  | .ok _ => false
  | .error _ => true

/-- `res.unwrap_err()`: the message of a failure.  In the source this is
only ever applied to results already filtered by `is_err`, so the `ok`
branch is unreachable there; the embedding makes it total with a default. -/
def unwrap_err : validate_result → String
  | .error m => m
  | .ok _ => ""

/-- The state of a `password_validator`: its field
`std::vector<std::function<validate_result(std::string_view)>> validators`,
in insertion order. -/
abbrev Validator := List (Password → validate_result)

/-- The closure `rule` pushes onto `validators`: it captures the predicate
and the message, and returns `success()` when the predicate holds and
`failure(msg)` otherwise. -/
def ruleClosure (pm : (Password → Bool) × String) : Password → validate_result :=
  fun password => if pm.1 password then .ok () else .error pm.2

/-- `password_validator::rule(rule, msg)`: `emplace_back` of the wrapping
closure at the end of `validators`.  The C++ member returns `*this`; in the
state-passing embedding the updated registry is the returned validator. -/
def rule (self : Validator) (pred : Password → Bool) (msg : String) : Validator :=
  self ++ [fun password => if pred password then .ok () else .error msg]

/-- The outcome of `password_validator::validate`:
`result<std::vector<std::string>>`, i.e. success with no payload or failure
with the list of error messages. -/
inductive Outcome where
  | ok : Outcome
  | err (messages : List String) : Outcome
deriving DecidableEq, Repr

/-- `password_validator::validate(password)`: run every stored closure on
the password (`std::transform`); if all results are ok (`std::all_of`),
return `success()`; otherwise filter the failing results
(`views::filter(&validate_result::is_err)`) and return `failure` of their
messages (`transform` with `unwrap_err`), in order. -/
def validate (self : Validator) (password : Password) : Outcome :=
  let results := self.map (fun validator => validator password)
  if results.all is_ok then
    Outcome.ok
  else
    Outcome.err ((results.filter is_err).map unwrap_err)

/-- Building a validator from a list of (predicate, message) pairs by
repeated calls to `rule`, starting from the default-constructed (empty)
validator — the chained-registration pattern of the driver. -/
def mkValidator (rules : List ((Password → Bool) × String)) : Validator :=
  rules.foldl (fun v pm => rule v pm.1 pm.2) []

/-- The C++ member call `validator.validate(password)` in state-passing
form: the body only reads the `validators` field (it builds a local
`results` vector and never assigns to `this`), so the post-state is the
pre-state. -/
def validateCall (self : Validator) (password : Password) : Outcome × Validator :=
  (validate self password, self)

/-! ## The example driver (`main`) -/

/-- `static_cast<unsigned char>(ch)` applied to a `char` value: reduction
modulo 256 into `[0, 256)`. -/
def castUC (ch : Int) : Int := ch % 256

/-- `std::islower` in the default "C" locale on a non-negative argument:
true exactly on the codes of `a` to `z`. -/
def islowerC (n : Int) : Bool := decide (97 ≤ n) && decide (n ≤ 122)

/-- `std::isupper` in the default "C" locale on a non-negative argument:
true exactly on the codes of `A` to `Z`. -/
def isupperC (n : Int) : Bool := decide (65 ≤ n) && decide (n ≤ 90)

/-- The driver's first rule (password length): `password.length() > 8`,
where `length()` counts `char` units (bytes). -/
def lengthCheck (password : Password) : Bool := decide (password.length > 8)

/-- The driver's second rule (digit): `find_first_of("0123456789") != npos`,
i.e. some character equals one of the ten digit characters (codes 48–57). -/
def digitCheck (password : Password) : Bool :=
  password.any (fun ch => decide (48 ≤ ch) && decide (ch ≤ 57))

/-- The driver's third rule (case): `any_of` with `islower` and with
`isupper`, each character cast to `unsigned char` first, and the
conjunction of the two. -/
def caseCheck (password : Password) : Bool :=
  let has_lower := password.any (fun ch => islowerC (castUC ch))
  let has_upper := password.any (fun ch => isupperC (castUC ch))
  has_lower && has_upper

/-- Message of the length rule. -/
def lenMsg : String := "password length must be greater than 8 chars."

/-- Message of the digit rule. -/
def digitMsg : String := "password must contain a digit."

/-- Message of the case rule. -/
def caseMsg : String := "password must contain both of lower and upper case."

/-- The three example rules in the driver's registration order. -/
def exampleRules : List ((Password → Bool) × String) :=
  [(lengthCheck, lenMsg), (digitCheck, digitMsg), (caseCheck, caseMsg)]

/-- The driver's validator: default-constructed, then the three `rule`
calls chained in order (length, digit, case). -/
def exampleValidator : Validator :=
  rule (rule (rule [] lengthCheck lenMsg) digitCheck digitMsg) caseCheck caseMsg

/-- The character values of the hardcoded literal `"hogehogeho"`. -/
def hogeInput : Password :=
  [104, 111, 103, 101, 104, 111, 103, 101, 104, 111]

/-- `main` generalized over the literal it validates: build the example
validator, validate the input, print the result, `return 0`.  The printed
result and the exit code are the observable pair; the `return 0` statement
does not inspect the outcome. -/
def mainWith (input : Password) : Outcome × Int :=
  let res := validate exampleValidator input
  (res, 0)

/-- The actual run of `main`: `mainWith` at the literal `"hogehogeho"`. -/
def mainRun : Outcome × Int := mainWith hogeInput

/-! ## Structural lemmas about `mkValidator` and `validate` -/

/-- Folding `rule` over a list of (predicate, message) pairs appends the
corresponding closures to the accumulator. -/
theorem foldl_rule_eq_append (rs : List ((Password → Bool) × String))
    (acc : Validator) :
    rs.foldl (fun v pm => rule v pm.1 pm.2) acc = acc ++ rs.map ruleClosure := by
  induction rs generalizing acc with
  | nil => simp
  | cons pm rs ih =>
      rw [List.foldl_cons, ih]
      simp only [rule, List.append_assoc, List.singleton_append, List.map_cons]
      rfl

/-- `mkValidator` stores exactly the closures of the given rules, in
order. -/
theorem mkValidator_eq_map (rs : List ((Password → Bool) × String)) :
    mkValidator rs = rs.map ruleClosure := by
  simpa using foldl_rule_eq_append rs []

/-- All stored closures succeed exactly when all predicates hold. -/
theorem all_ok_eq_all_pred (rs : List ((Password → Bool) × String))
    (c : Password) :
    ((rs.map (fun pm => ruleClosure pm c)).all is_ok) = rs.all (fun pm => pm.1 c) := by
  induction rs with
  | nil => rfl
  | cons pm rs ih =>
      have hc : ruleClosure pm c = if pm.1 c then Except.ok () else Except.error pm.2 := rfl
      simp only [List.map_cons, List.all_cons, ih]
      cases h : pm.1 c <;> simp [hc, h, is_ok]

/-- The messages extracted from the failing closures are exactly the
messages of the rules whose predicate is false, in order. -/
theorem err_map_eq_failing_msgs (rs : List ((Password → Bool) × String))
    (c : Password) :
    ((rs.map (fun pm => ruleClosure pm c)).filter is_err).map unwrap_err
      = (rs.filter (fun pm => !pm.1 c)).map Prod.snd := by
  induction rs with
  | nil => rfl
  | cons pm rs ih =>
      have hc : ruleClosure pm c = if pm.1 c then Except.ok () else Except.error pm.2 := rfl
      cases h : pm.1 c <;>
        simp [hc, is_err, unwrap_err, List.filter_cons, h, ih]

/-- `validate` on a validator built by `mkValidator`, in structured form:
`Ok` when every predicate holds, otherwise `Err` of the failing rules'
messages in registration order. -/
theorem validate_mk (rs : List ((Password → Bool) × String)) (c : Password) :
    validate (mkValidator rs) c =
      if rs.all (fun pm => pm.1 c) then Outcome.ok
      else Outcome.err ((rs.filter (fun pm => !pm.1 c)).map Prod.snd) := by
  rw [mkValidator_eq_map]
  unfold validate
  simp only [List.map_map, Function.comp_def]
  rw [all_ok_eq_all_pred, err_map_eq_failing_msgs]

/-- `validate` on a built validator succeeds iff every registered
predicate holds on the candidate. -/
theorem validate_mk_ok_iff (rs : List ((Password → Bool) × String)) (c : Password) :
    validate (mkValidator rs) c = Outcome.ok ↔ ∀ pm ∈ rs, pm.1 c = true := by
  rw [validate_mk, ← List.all_eq_true]
  cases h : rs.all (fun pm => pm.1 c) <;> simp [h]

/-- When `validate` on a built validator fails, the returned messages are
exactly those of the failing rules, in registration order. -/
theorem validate_mk_err_eq (rs : List ((Password → Bool) × String)) (c : Password)
    (msgs : List String) (h : validate (mkValidator rs) c = Outcome.err msgs) :
    msgs = (rs.filter (fun pm => !pm.1 c)).map Prod.snd := by
  rw [validate_mk] at h
  cases hall : rs.all (fun pm => pm.1 c) <;> simp [hall] at h
  exact h.symm

/-! ## Claim theorems -/

/-- C3: `validate` returns `Ok` iff every registered rule's predicate
returns true for the candidate; in particular a validator with zero
registered rules returns `Ok` for every candidate, including the empty
string. -/
theorem ok_iff_all_rules_pass (rs : List ((Password → Bool) × String)) (c : Password) :
    (validate (mkValidator rs) c = Outcome.ok ↔ ∀ pm ∈ rs, pm.1 c = true) ∧
      validate (mkValidator []) c = Outcome.ok :=
  ⟨validate_mk_ok_iff rs c, rfl⟩

/-- C4: `validate` is a pure function of the rule list and the candidate:
the member call leaves the registry unchanged, and a second call on the
post-state with the same candidate yields the identical outcome. -/
theorem validate_pure_idempotent (v : Validator) (c : Password) :
    (validateCall v c).2 = v ∧
      (validateCall ((validateCall v c).2) c).1 = (validateCall v c).1 :=
  ⟨rfl, rfl⟩

/-- C5: the driver's actual run: `"hogehogeho"` (10 characters) against the
three example rules yields `Err` with exactly the digit message then the
case message; the length rule passes. -/
theorem driver_run_two_messages :
    validate exampleValidator hogeInput =
      Outcome.err ["password must contain a digit.",
        "password must contain both of lower and upper case."] ∧
      hogeInput.length = 10 := by
  constructor <;> decide

/-- C7: `main` returns 0 whatever the validation outcome is: the exit code
component of the modelled run is 0 for every input, and in particular for
the actual hardcoded run. -/
theorem main_exit_zero :
    (∀ input : Password, (mainWith input).2 = 0) ∧ mainRun.2 = 0 :=
  ⟨fun _ => rfl, rfl⟩

/-- C9: registration performs no deduplication: registering the same
(predicate, message) pair twice and failing both yields the message twice,
once per registration. -/
theorem duplicate_rules_msgs (p : Password → Bool) (m : String) (c : Password)
    (h : p c = false) :
    validate (mkValidator [(p, m), (p, m)]) c = Outcome.err [m, m] := by
  rw [validate_mk]
  simp [h]

/-- Witness for C9 at a concrete always-false predicate and candidate. -/
theorem duplicate_rules_msgs_witness :
    validate (mkValidator [((fun (_ : Password) => false), "dup"),
      ((fun (_ : Password) => false), "dup")]) [] = Outcome.err ["dup", "dup"] :=
  duplicate_rules_msgs (fun _ => false) "dup" [] rfl

/-- The UTF-8 code units of the three-character string made of three
hiragana letters: nine bytes encoding three characters. -/
def multibyteNine : Password := [227, 129, 130, 227, 129, 132, 227, 129, 134]

/-- C10: the length rule counts `char` units (bytes): it passes iff the
candidate has more than 8 bytes, regardless of how many characters those
bytes encode — a nine-byte, three-character UTF-8 candidate passes. -/
theorem length_rule_counts_bytes :
    (∀ c : Password, lengthCheck c = true ↔ 8 < c.length) ∧
      multibyteNine.length = 9 ∧ lengthCheck multibyteNine = true := by
  refine ⟨fun c => by simp [lengthCheck], by decide, by decide⟩

/-- C6: `rule` appends exactly one closure (built from the given predicate
and message) at the end of the registry, leaves every previously
registered entry unchanged in content and position, accepts any message
(the statement quantifies over all messages, the empty one included), and
always returns the updated validator for chaining. -/
theorem rule_appends_one (v : Validator) (p : Password → Bool) (m : String) :
    rule v p m = v ++ [ruleClosure (p, m)] ∧
      (rule v p m).length = v.length + 1 ∧
      (rule v p m).take v.length = v ∧
      (rule v p m).drop v.length = [ruleClosure (p, m)] := by
  refine ⟨rfl, by simp [rule], ?_, ?_⟩
  · show (v ++ [ruleClosure (p, m)]).take v.length = v
    simp [List.take_left]
  · show (v ++ [ruleClosure (p, m)]).drop v.length = [ruleClosure (p, m)]
    simp [List.drop_left]

/-- C2: whenever `validate` returns `Err msgs`, `msgs` is exactly the list
of messages of the failing rules, one per failing rule in registration
order; in particular its length is the number of failing rules, and no
failure is dropped. -/
theorem err_messages_exact (rs : List ((Password → Bool) × String)) (c : Password)
    (msgs : List String) (h : validate (mkValidator rs) c = Outcome.err msgs) :
    msgs = (rs.filter (fun pm => !pm.1 c)).map Prod.snd ∧
      msgs.length = (rs.filter (fun pm => !pm.1 c)).length := by
  have he := validate_mk_err_eq rs c msgs h
  exact ⟨he, by rw [he, List.length_map]⟩

/-- Witness for C2: one failing rule and one passing rule at a concrete
candidate. -/
theorem err_messages_exact_witness :
    ["a"] = (([((fun (p : Password) => decide (0 < p.length)), "a"),
        ((fun (_ : Password) => true), "b")].filter (fun pm => !pm.1 [])).map Prod.snd) ∧
      (["a"] : List String).length =
        ([((fun (p : Password) => decide (0 < p.length)), "a"),
          ((fun (_ : Password) => true), "b")].filter (fun pm => !pm.1 [])).length :=
  err_messages_exact
    [((fun (p : Password) => decide (0 < p.length)), "a"), ((fun (_ : Password) => true), "b")]
    [] ["a"] rfl

/-- C8: the case rule is total and well defined on every character value,
negative ones included: the value handed to the classification functions
is the unsigned-char cast, always in `[0, 256)`, and the rule holds iff
the candidate contains a character classified lowercase and one classified
uppercase. -/
theorem case_rule_total (c : Password) :
    (∀ ch ∈ c, 0 ≤ castUC ch ∧ castUC ch < 256) ∧
      (caseCheck c = true ↔
        ((∃ ch ∈ c, 97 ≤ castUC ch ∧ castUC ch ≤ 122) ∧
          (∃ ch ∈ c, 65 ≤ castUC ch ∧ castUC ch ≤ 90))) := by
  constructor
  · intro ch _
    unfold castUC
    omega
  · simp [caseCheck, islowerC, isupperC, List.any_eq_true]

/-- C1: against the three example rules, a candidate made of valid `char`
values validates `Ok` iff it is longer than 8, contains a digit, and
contains both a lowercase and an uppercase letter. -/
theorem example_rules_ok_iff (c : Password)
    (h : ∀ ch ∈ c, -128 ≤ ch ∧ ch ≤ 255) :
    validate exampleValidator c = Outcome.ok ↔
      8 < c.length ∧ (∃ ch ∈ c, 48 ≤ ch ∧ ch ≤ 57) ∧
        (∃ ch ∈ c, 97 ≤ ch ∧ ch ≤ 122) ∧ (∃ ch ∈ c, 65 ≤ ch ∧ ch ≤ 90) := by
  have hmk : exampleValidator = mkValidator exampleRules := rfl
  have hsplit : (∀ pm ∈ exampleRules, pm.1 c = true) ↔
      (lengthCheck c = true ∧ digitCheck c = true ∧ caseCheck c = true) := by
    simp [exampleRules]
  have h1 : (lengthCheck c = true) ↔ 8 < c.length := by simp [lengthCheck]
  have h2 : (digitCheck c = true) ↔ ∃ ch ∈ c, 48 ≤ ch ∧ ch ≤ 57 := by
    simp [digitCheck, List.any_eq_true]
  have h3 : (caseCheck c = true) ↔
      ((∃ ch ∈ c, 97 ≤ ch ∧ ch ≤ 122) ∧ (∃ ch ∈ c, 65 ≤ ch ∧ ch ≤ 90)) := by
    simp only [caseCheck, Bool.and_eq_true, List.any_eq_true, islowerC, isupperC, castUC,
      decide_eq_true_eq]
    constructor
    · rintro ⟨⟨lo, hlo, hlo2⟩, ⟨up, hup, hup2⟩⟩
      have hl := h lo hlo
      have hu := h up hup
      exact ⟨⟨lo, hlo, by omega⟩, ⟨up, hup, by omega⟩⟩
    · rintro ⟨⟨lo, hlo, hlo2⟩, ⟨up, hup, hup2⟩⟩
      have hl := h lo hlo
      have hu := h up hup
      exact ⟨⟨lo, hlo, by omega⟩, ⟨up, hup, by omega⟩⟩
  rw [hmk, validate_mk_ok_iff, hsplit, h1, h2, h3]

/-- Witness for C1 at the spec's concrete scenario `"Password1"`:
9 characters, a digit, both cases, hence `Ok`. -/
theorem example_rules_ok_iff_witness :
    validate exampleValidator [80, 97, 115, 115, 119, 111, 114, 100, 49] = Outcome.ok :=
  (example_rules_ok_iff [80, 97, 115, 115, 119, 111, 114, 100, 49]
    (by decide)).mpr (by decide)
